import Mathlib

/-!
Shallow embedding of the selection logic of the `demo-ui-lib` Vue component
library, covering the `PeriodButton` group reducer (`handlePeriodClick`,
`isSelected` and the period validator) and the `ActionButton` action handler
(`handleAction`), together with proofs of the behavioural properties stated
in the specification.
-/

namespace PeriodButton

/-- The reactive props of the PeriodButton component that the click reducer
reads: `modelValue` (single-mode selection), `selectedPeriods` (multiple-mode
selection), the `disabled` flag and the `allowMultiple` mode flag. -/
structure Props where
  modelValue : String
  selectedPeriods : List String
  disabled : Bool
  allowMultiple : Bool
deriving Repr, DecidableEq

/-- The payload of the `change` event: either the single-mode record with
fields `type: single`, `selectedPeriod`, `previousPeriod`, or the
multiple-mode record with fields `type: multiple`, `selectedPeriods`,
`clickedPeriod`. -/
inductive ChangeDescriptor where
  | single (selectedPeriod : String) (previousPeriod : String)
  | multiple (selectedPeriods : List String) (clickedPeriod : String)
deriving Repr, DecidableEq

/-- The observable outcome of one `handlePeriodClick` call: the next values of
the two pieces of selection state, whether each `update:*` event fired, and
the `change` descriptor if one was emitted. -/
structure ClickResult where
  modelValue : String
  selectedPeriods : List String
  modelValueUpdated : Bool
  selectedPeriodsUpdated : Bool
  change : Option ChangeDescriptor
deriving Repr, DecidableEq

/-- The valid period identifiers, as listed by the `modelValue` prop
validator and by `PeriodConfigManager.defaultPeriods`. -/
def validPeriods : List String :=
  ["day", "week", "month", "quarter", "year", "custom"]

/-- `PeriodConfigManager.isValidPeriod`: membership in the keys of
`defaultPeriods`. -/
def isValidPeriod (period : String) : Bool :=
  validPeriods.contains period

/-- The `isSelected` method: in multiple mode, membership of the value in
`selectedPeriods`; in single mode, equality with `modelValue`. -/
def isSelected (props : Props) (periodValue : String) : Bool :=
  if props.allowMultiple then
    props.selectedPeriods.contains periodValue
  else
    props.modelValue == periodValue

/-- The `handlePeriodClick` method.  Mirrors the source: an early return when
`disabled`; in multiple mode a copy of `selectedPeriods` is searched with
`indexOf` and the hit is `splice`d out (JS `indexOf` returns `-1` on a miss,
which Lean's `List.indexOf` renders as `length`, so `index > -1` becomes
`index < length`), otherwise the value is `push`ed; in single mode the value
is adopted only when it differs from `modelValue`. -/
def handlePeriodClick (props : Props) (periodValue : String) : ClickResult :=
  if props.disabled then
    { modelValue := props.modelValue
      selectedPeriods := props.selectedPeriods
      modelValueUpdated := false
      selectedPeriodsUpdated := false
      change := none }
  else if props.allowMultiple then
    let index := props.selectedPeriods.indexOf periodValue
    let newSelectedPeriods :=
      if index < props.selectedPeriods.length then
        props.selectedPeriods.eraseIdx index
      else
        props.selectedPeriods ++ [periodValue]
    { modelValue := props.modelValue
      selectedPeriods := newSelectedPeriods
      modelValueUpdated := false
      selectedPeriodsUpdated := true
      change := some (.multiple newSelectedPeriods periodValue) }
  else
    if props.modelValue ≠ periodValue then
      { modelValue := periodValue
        selectedPeriods := props.selectedPeriods
        modelValueUpdated := true
        selectedPeriodsUpdated := false
        change := some (.single periodValue props.modelValue) }
    else
      { modelValue := props.modelValue
        selectedPeriods := props.selectedPeriods
        modelValueUpdated := false
        selectedPeriodsUpdated := false
        change := none }

/-- Fold one click back into the props, as `v-model` does for
`update:modelValue` / `update:selectedPeriods`. -/
def applyClick (props : Props) (periodValue : String) : Props :=
  let r := handlePeriodClick props periodValue
  { props with modelValue := r.modelValue, selectedPeriods := r.selectedPeriods }

/-- Fold a sequence of clicks through the reducer. -/
def applyClicks (props : Props) (clicks : List String) : Props :=
  clicks.foldl applyClick props

/-- The list the multiple-mode branch computes, in erase/append form: remove
the first occurrence of the clicked value when present, append it
otherwise. -/
def multipleNext (S : List String) (i : String) : List String :=
  if i ∈ S then S.erase i else S ++ [i]

lemma indexOf_splice_eq_multipleNext (S : List String) (i : String) :
    (if S.indexOf i < S.length then S.eraseIdx (S.indexOf i) else S ++ [i])
      = multipleNext S i := by
  unfold multipleNext
  by_cases h : i ∈ S
  · rw [if_pos h, if_pos (List.indexOf_lt_length.2 h), List.eraseIdx_indexOf_eq_erase]
  · rw [if_neg h, if_neg]
    simp [List.indexOf_eq_length.2 h]

lemma handlePeriodClick_multiple (p : Props) (i : String)
    (hd : p.disabled = false) (hm : p.allowMultiple = true) :
    handlePeriodClick p i =
      { modelValue := p.modelValue
        selectedPeriods := multipleNext p.selectedPeriods i
        modelValueUpdated := false
        selectedPeriodsUpdated := true
        change := some (.multiple (multipleNext p.selectedPeriods i) i) } := by
  simp only [handlePeriodClick, hd, hm, Bool.false_eq_true, if_false, if_true,
    indexOf_splice_eq_multipleNext]

lemma multipleNext_nodup (S : List String) (i : String) (h : S.Nodup) :
    (multipleNext S i).Nodup := by
  unfold multipleNext
  by_cases hm : i ∈ S
  · rw [if_pos hm]; exact h.erase i
  · rw [if_neg hm]; simp [List.nodup_append, h, hm]

lemma mem_multipleNext_of_mem (S : List String) (i : String) (h : S.Nodup)
    (hm : i ∈ S) (x : String) : x ∈ multipleNext S i ↔ x ∈ S ∧ x ≠ i := by
  rw [multipleNext, if_pos hm, h.mem_erase_iff]; tauto

lemma mem_multipleNext_of_not_mem (S : List String) (i : String)
    (hm : i ∉ S) (x : String) : x ∈ multipleNext S i ↔ x ∈ S ∨ x = i := by
  rw [multipleNext, if_neg hm]; simp

lemma mem_multipleNext_multipleNext (S : List String) (i : String)
    (h : S.Nodup) (x : String) : x ∈ multipleNext (multipleNext S i) i ↔ x ∈ S := by
  by_cases hm : i ∈ S
  · have hni : i ∉ multipleNext S i := by
      rw [mem_multipleNext_of_mem S i h hm]; simp
    rw [mem_multipleNext_of_not_mem _ _ hni, mem_multipleNext_of_mem S i h hm]
    constructor
    · rintro (⟨hx, _⟩ | rfl)
      · exact hx
      · exact hm
    · intro hx
      by_cases hxi : x = i
      · exact Or.inr hxi
      · exact Or.inl ⟨hx, hxi⟩
  · have h1 : multipleNext S i = S ++ [i] := by rw [multipleNext, if_neg hm]
    have h2 : multipleNext (S ++ [i]) i = S := by
      rw [multipleNext, if_pos (by simp), List.erase_append_right _ hm]
      simp
    rw [h1, h2]

lemma applyClick_allowMultiple (p : Props) (i : String) :
    (applyClick p i).allowMultiple = p.allowMultiple := rfl

lemma applyClicks_allowMultiple (p : Props) (clicks : List String) :
    (applyClicks p clicks).allowMultiple = p.allowMultiple := by
  induction clicks generalizing p with
  | nil => rfl
  | cons c cs ih => rw [applyClicks, List.foldl_cons, ← applyClicks, ih, applyClick_allowMultiple]

end PeriodButton

namespace ActionButton

/-- The props of the ActionButton component that `handleAction` reads: the
configured `action` type tag, the `loading` flag and the `disabled` flag. -/
structure Props where
  action : String
  loading : Bool
  disabled : Bool
deriving Repr, DecidableEq

/-- The payload of the emitted `action` event, carrying the configured action
type.  The original DOM event and the wall-clock timestamp of the source are
outside the model. -/
structure ActionEvent where
  action : String
deriving Repr, DecidableEq

/-- The observable outcome of one `handleAction` call: the `action` event
payload when one fired, and whether the backward-compatibility `click` event
fired. -/
structure ActionResult where
  actionEmitted : Option ActionEvent
  clickEmitted : Bool
deriving Repr, DecidableEq

/-- The `handleAction` method: when neither `loading` nor `disabled` is set,
emit the `action` event with the configured action type and then the `click`
event; otherwise do nothing. -/
def handleAction (props : Props) : ActionResult :=
  if !props.loading && !props.disabled then
    { actionEmitted := some { action := props.action }
      clickEmitted := true }
  else
    { actionEmitted := none
      clickEmitted := false }

end ActionButton

open PeriodButton

/-- C1: In multiple mode with `disabled` false, clicking `i` on selection set
`S` yields `S` minus `i` when `i` is a member of `S` and `S` plus `i`
otherwise, and always emits the change descriptor with kind multiple, the
next selection, and the clicked value. -/
theorem multiple_click_postcondition (S : List String) (mv i : String)
    (hnd : S.Nodup) :
    (i ∈ S → ∀ x, x ∈ (handlePeriodClick ⟨mv, S, false, true⟩ i).selectedPeriods
        ↔ x ∈ S ∧ x ≠ i) ∧
    (i ∉ S → ∀ x, x ∈ (handlePeriodClick ⟨mv, S, false, true⟩ i).selectedPeriods
        ↔ x ∈ S ∨ x = i) ∧
    (handlePeriodClick ⟨mv, S, false, true⟩ i).change =
      some (.multiple (handlePeriodClick ⟨mv, S, false, true⟩ i).selectedPeriods i) := by
  rw [handlePeriodClick_multiple ⟨mv, S, false, true⟩ i rfl rfl]
  exact ⟨fun hm x => mem_multipleNext_of_mem S i hnd hm x,
    fun hm x => mem_multipleNext_of_not_mem S i hm x, rfl⟩

/-- Witness for C1 at Scenario D: in multiple mode with current selection
month and quarter, clicking month removes it and emits the descriptor. -/
theorem multiple_click_postcondition_witness :
    ("month" ∈ (["month", "quarter"] : List String)) ∧
    (∀ x, x ∈ (handlePeriodClick ⟨"month", ["month", "quarter"], false, true⟩
        "month").selectedPeriods ↔ x ∈ (["month", "quarter"] : List String) ∧ x ≠ "month") ∧
    (handlePeriodClick ⟨"month", ["month", "quarter"], false, true⟩ "month").change =
      some (.multiple (handlePeriodClick ⟨"month", ["month", "quarter"], false, true⟩
        "month").selectedPeriods "month") :=
  ⟨by decide,
   (multiple_click_postcondition ["month", "quarter"] "month" "month"
      (by decide)).1 (by decide),
   (multiple_click_postcondition ["month", "quarter"] "month" "month"
      (by decide)).2.2⟩

/-- C2: In single mode with `disabled` false and a clicked value different
from the current one, the reducer adopts the clicked value, fires the
model-value update, and emits the single-mode descriptor carrying the new and
the previous selection. -/
theorem single_click_change (s i : String) (M : List String) (h : i ≠ s) :
    handlePeriodClick ⟨s, M, false, false⟩ i =
      { modelValue := i
        selectedPeriods := M
        modelValueUpdated := true
        selectedPeriodsUpdated := false
        change := some (.single i s) } := by
  have h' : ¬ (s = i) := fun e => h e.symm
  simp [handlePeriodClick, h']

/-- Witness for C2 at Scenario A: single mode, current month, clicking week
selects week and emits the descriptor with previous month. -/
theorem single_click_change_witness :
    handlePeriodClick ⟨"month", [], false, false⟩ "week" =
      { modelValue := "week"
        selectedPeriods := []
        modelValueUpdated := true
        selectedPeriodsUpdated := false
        change := some (.single "week" "month") } :=
  single_click_change "month" "week" [] (by decide)

/-- C3: In single mode with `disabled` false, clicking the currently selected
value changes nothing and emits no event. -/
theorem single_click_idempotent (p : Props) (i : String)
    (hd : p.disabled = false) (hm : p.allowMultiple = false)
    (heq : p.modelValue = i) :
    handlePeriodClick p i =
      { modelValue := p.modelValue
        selectedPeriods := p.selectedPeriods
        modelValueUpdated := false
        selectedPeriodsUpdated := false
        change := none } := by
  simp [handlePeriodClick, hd, hm, heq]

/-- Witness for C3 at Scenario B: single mode, current month, clicking month
is a no-op with no descriptor. -/
theorem single_click_idempotent_witness :
    handlePeriodClick ⟨"month", ["day"], false, false⟩ "month" =
      { modelValue := "month"
        selectedPeriods := ["day"]
        modelValueUpdated := false
        selectedPeriodsUpdated := false
        change := none } :=
  single_click_idempotent ⟨"month", ["day"], false, false⟩ "month" rfl rfl rfl

/-- C4: When `disabled` is true the reducer is a no-op in both modes: the
selection state is unchanged and neither a change descriptor nor a value
update is produced. -/
theorem disabled_click_noop (p : Props) (i : String) (hd : p.disabled = true) :
    handlePeriodClick p i =
      { modelValue := p.modelValue
        selectedPeriods := p.selectedPeriods
        modelValueUpdated := false
        selectedPeriodsUpdated := false
        change := none } := by
  simp [handlePeriodClick, hd]

/-- Witness for C4 at Scenario E: disabled, single mode, current month,
clicking week changes nothing and emits nothing. -/
theorem disabled_click_noop_witness :
    handlePeriodClick ⟨"month", ["quarter"], true, false⟩ "week" =
      { modelValue := "month"
        selectedPeriods := ["quarter"]
        modelValueUpdated := false
        selectedPeriodsUpdated := false
        change := none } :=
  disabled_click_noop ⟨"month", ["quarter"], true, false⟩ "week" rfl

/-- C5: In multiple mode with `disabled` false, two consecutive clicks on
the same value return the selection to a set equal to the original (as a
membership set), and a change descriptor is emitted on both clicks. -/
theorem multiple_toggle_involution (S : List String) (mv i : String)
    (hnd : S.Nodup) :
    (∀ x, x ∈ (applyClick (applyClick ⟨mv, S, false, true⟩ i) i).selectedPeriods
        ↔ x ∈ S) ∧
    (handlePeriodClick ⟨mv, S, false, true⟩ i).change.isSome = true ∧
    (handlePeriodClick (applyClick ⟨mv, S, false, true⟩ i) i).change.isSome = true := by
  have h1 : applyClick ⟨mv, S, false, true⟩ i =
      ⟨mv, multipleNext S i, false, true⟩ := by
    rw [applyClick, handlePeriodClick_multiple ⟨mv, S, false, true⟩ i rfl rfl]
  have h2 : applyClick ⟨mv, multipleNext S i, false, true⟩ i =
      ⟨mv, multipleNext (multipleNext S i) i, false, true⟩ := by
    rw [applyClick, handlePeriodClick_multiple ⟨mv, multipleNext S i, false, true⟩ i rfl rfl]
  refine ⟨?_, ?_, ?_⟩
  · intro x
    rw [h1, h2]
    exact mem_multipleNext_multipleNext S i hnd x
  · rw [handlePeriodClick_multiple ⟨mv, S, false, true⟩ i rfl rfl]
    rfl
  · rw [h1, handlePeriodClick_multiple ⟨mv, multipleNext S i, false, true⟩ i rfl rfl]
    rfl

/-- Witness for C5: starting from the set containing month and quarter,
clicking week twice restores the set and both clicks emit a descriptor. -/
theorem multiple_toggle_involution_witness :
    (∀ x, x ∈ (applyClick (applyClick ⟨"month", ["month", "quarter"], false, true⟩
        "week") "week").selectedPeriods ↔ x ∈ (["month", "quarter"] : List String)) ∧
    (handlePeriodClick ⟨"month", ["month", "quarter"], false, true⟩ "week").change.isSome = true ∧
    (handlePeriodClick (applyClick ⟨"month", ["month", "quarter"], false, true⟩ "week")
        "week").change.isSome = true :=
  multiple_toggle_involution ["month", "quarter"] "month" "week" (by decide)

/-- C6: Mode isolation.  A click handled in single mode never changes the
multiple-mode selection list and never fires its update event; a click
handled in multiple mode never changes the single-mode selection and never
fires its update event. -/
theorem mode_isolation (p : Props) (i : String) :
    (p.allowMultiple = false →
      (handlePeriodClick p i).selectedPeriods = p.selectedPeriods ∧
      (handlePeriodClick p i).selectedPeriodsUpdated = false) ∧
    (p.allowMultiple = true →
      (handlePeriodClick p i).modelValue = p.modelValue ∧
      (handlePeriodClick p i).modelValueUpdated = false) := by
  constructor
  · intro hm
    by_cases hd : p.disabled
    · simp [handlePeriodClick, hd]
    · by_cases he : p.modelValue = i <;> simp [handlePeriodClick, hd, hm, he]
  · intro hm
    by_cases hd : p.disabled
    · simp [handlePeriodClick, hd]
    · simp [handlePeriodClick, hd, hm]

/-- Witness for C6: a single-mode click leaves the multiple-mode list
untouched, and a multiple-mode click leaves the single-mode value
untouched. -/
theorem mode_isolation_witness :
    ((handlePeriodClick ⟨"month", ["day"], false, false⟩ "week").selectedPeriods = ["day"] ∧
      (handlePeriodClick ⟨"month", ["day"], false, false⟩ "week").selectedPeriodsUpdated = false) ∧
    ((handlePeriodClick ⟨"month", ["day"], false, true⟩ "week").modelValue = "month" ∧
      (handlePeriodClick ⟨"month", ["day"], false, true⟩ "week").modelValueUpdated = false) :=
  ⟨(mode_isolation ⟨"month", ["day"], false, false⟩ "week").1 rfl,
   (mode_isolation ⟨"month", ["day"], false, true⟩ "week").2 rfl⟩

/-- C7: The reducer accepts every identifier opaquely: for any clicked value,
whether or not `isValidPeriod` holds of it, the result is total (no error
value exists) and is exactly the one prescribed by the single-mode and
multiple-mode rules. -/
theorem click_accepts_any_identifier (p : Props) (i : String)
    (hd : p.disabled = false) :
    handlePeriodClick p i =
      if p.allowMultiple then
        { modelValue := p.modelValue
          selectedPeriods := multipleNext p.selectedPeriods i
          modelValueUpdated := false
          selectedPeriodsUpdated := true
          change := some (.multiple (multipleNext p.selectedPeriods i) i) }
      else if p.modelValue = i then
        { modelValue := p.modelValue
          selectedPeriods := p.selectedPeriods
          modelValueUpdated := false
          selectedPeriodsUpdated := false
          change := none }
      else
        { modelValue := i
          selectedPeriods := p.selectedPeriods
          modelValueUpdated := true
          selectedPeriodsUpdated := false
          change := some (.single i p.modelValue) } := by
  by_cases hm : p.allowMultiple
  · rw [handlePeriodClick_multiple p i hd hm, if_pos hm]
  · by_cases he : p.modelValue = i <;>
      simp [handlePeriodClick, hd, hm, he]

/-- Witness for C7 at the out-of-set identifier fortnight: `isValidPeriod`
rejects it, yet the reducer applies the ordinary single-mode rule to it. -/
theorem click_accepts_any_identifier_witness :
    isValidPeriod "fortnight" = false ∧
    handlePeriodClick ⟨"month", [], false, false⟩ "fortnight" =
      { modelValue := "fortnight"
        selectedPeriods := []
        modelValueUpdated := true
        selectedPeriodsUpdated := false
        change := some (.single "fortnight" "month") } :=
  ⟨by decide,
   Eq.trans (click_accepts_any_identifier ⟨"month", [], false, false⟩ "fortnight" rfl)
     (by decide)⟩

/-- C8: Single-mode exclusivity.  After any sequence of clicks folded through
the reducer in single mode, `isSelected` holds of at most one identifier. -/
theorem single_mode_exclusive (p : Props) (clicks : List String)
    (hm : p.allowMultiple = false) (i j : String)
    (hi : isSelected (applyClicks p clicks) i = true)
    (hj : isSelected (applyClicks p clicks) j = true) : i = j := by
  have hmm : (applyClicks p clicks).allowMultiple = false := by
    rw [applyClicks_allowMultiple, hm]
  rw [isSelected, hmm] at hi hj
  simp only [Bool.false_eq_true, if_false, beq_iff_eq] at hi hj
  rw [← hi, ← hj]

/-- Witness for C8: after the click sequence week, day from current month in
single mode, both selected identifiers must coincide (both are day). -/
theorem single_mode_exclusive_witness :
    isSelected (applyClicks ⟨"month", [], false, false⟩ ["week", "day"]) "day" = true ∧
    ("day" : String) = "day" :=
  ⟨by decide,
   single_mode_exclusive ⟨"month", [], false, false⟩ ["week", "day"] rfl "day" "day"
     (by decide) (by decide)⟩

/-- C9: Duplicate freedom.  In multiple mode with `disabled` false, if the
current selection list has no duplicates then neither does the list the
reducer produces: membership is checked before appending, and removal
deletes the single occurrence. -/
theorem multiple_click_nodup (p : Props) (i : String)
    (hd : p.disabled = false) (hm : p.allowMultiple = true)
    (hnd : p.selectedPeriods.Nodup) :
    (handlePeriodClick p i).selectedPeriods.Nodup := by
  rw [handlePeriodClick_multiple p i hd hm]
  exact multipleNext_nodup p.selectedPeriods i hnd

/-- Witness for C9: toggling week into the duplicate-free list month, quarter
yields a duplicate-free list. -/
theorem multiple_click_nodup_witness :
    (handlePeriodClick ⟨"month", ["month", "quarter"], false, true⟩
        "week").selectedPeriods.Nodup :=
  multiple_click_nodup ⟨"month", ["month", "quarter"], false, true⟩ "week"
    rfl rfl (by decide)

/-- C10: The ActionButton handler emits the `action` descriptor together with
the backward-compatibility `click` event exactly when both `loading` and
`disabled` are false (so a loading button emits nothing even when enabled),
and the emitted descriptor carries the configured action type. -/
theorem action_emission_iff (p : ActionButton.Props) :
    ((ActionButton.handleAction p).actionEmitted = some { action := p.action } ∧
        (ActionButton.handleAction p).clickEmitted = true
      ↔ p.loading = false ∧ p.disabled = false) ∧
    ((ActionButton.handleAction p).actionEmitted = none ∧
        (ActionButton.handleAction p).clickEmitted = false
      ↔ p.loading = true ∨ p.disabled = true) := by
  rw [ActionButton.handleAction]
  by_cases hl : p.loading
  · simp [hl]
  · by_cases hdis : p.disabled <;> simp [hl, hdis]
